import Mathlib

/-!
Verification development for the quiz-text engine of src/src/App.jsx:
text canonicalization (canonicalizeQuizText), question segmentation
(parseQuestionsFromText), answer-key import (importAnswerKeyFromJsonFile),
per-question status (statusOf) and aggregate scoring (the score memo).

Strings are modelled as Lean strings (lists of Unicode characters); each
regular-expression rewrite of the source is embedded as a left-to-right,
non-overlapping scan with a dedicated matcher for that one pattern, mirroring
the semantics of a JavaScript global replace: at each position the pattern is
tried (greedy quantifiers, ordered alternation); on a match the replacement is
emitted and scanning resumes after the consumed text, otherwise the character
is copied and scanning advances by one.
-/

namespace PdfQuiz

/-- Character test standing in for the class \s of the source's regular
expressions (and for the ends trimmed by String.prototype.trim), over the
character repertoire that occurs in quiz text: space, tab, line feed,
carriage return, vertical tab, form feed, no-break space, BOM. -/
def jsWs (c : Char) : Bool :=
  c == ' ' || c == '\t' || c == '\n' || c == '\r' ||
  c.toNat == 11 || c.toNat == 12 || c.toNat == 160 || c.toNat == 65279

/-- Length of the leading run of \s characters (a greedy \s* match). -/
def wsCount : List Char → Nat
  | [] => 0
  | c :: r => if jsWs c then wsCount r + 1 else 0

/-- Length of the leading run of decimal digits (a greedy \d* match). -/
def digitCount : List Char → Nat
  | [] => 0
  | c :: r => if c.isDigit then digitCount r + 1 else 0

/-- Length of the leading run of space-or-tab (the class of /[ \t]+/). -/
def hspCount : List Char → Nat
  | [] => 0
  | c :: r => if c == ' ' || c == '\t' then hspCount r + 1 else 0

/-- Length of the leading run of line feeds (for /\n{2,}/ and /\n{3,}/). -/
def nlCount : List Char → Nat
  | [] => 0
  | c :: r => if c == '\n' then nlCount r + 1 else 0

/-- Length of the leading run of newline-or-space (the class of /[\n ]+/). -/
def nlSpCount : List Char → Nat
  | [] => 0
  | c :: r => if c == '\n' || c == ' ' then nlSpCount r + 1 else 0

/-- The value of a digit string, as Number() yields on an all-digit string. -/
def digitsToNat (ds : List Char) : Nat :=
  ds.foldl (fun n c => n * 10 + (c.toNat - 48)) 0

/-- Both-ends trim with the same character set as the \s class, standing in
for String.prototype.trim on the text that occurs here. -/
def jsTrimList (s : List Char) : List Char :=
  ((s.dropWhile jsWs).reverse.dropWhile jsWs).reverse

/-- String-level trim. -/
def jsTrimString (s : String) : String :=
  ⟨jsTrimList s.data⟩

/-- Character uppercasing as toUpperCase acts on the ASCII letters that the
source uppercases (captured option letters and answer letters). -/
def jsToUpperString (s : String) : String :=
  ⟨s.data.map Char.toUpper⟩

/-- One pass of a JavaScript-style global replace. A matcher takes a flag
telling whether this position is the start of the whole string (where the
anchor in /(^|[\n ]+).../ can match) and the text from this position on; it
answers with the replacement and the number of characters consumed (always
at least one for the patterns embedded here). The fuel starts above the
length of the text, so it never runs out before the text does. -/
def gReplace (f : Bool → List Char → Option (List Char × Nat)) :
    Nat → Bool → List Char → List Char
  | 0, _, _ => []
  | fuel + 1, atStart, s =>
    match s with
    | [] => []
    | c :: rest =>
      match f atStart s with
      | some (rep, n) => rep ++ gReplace f fuel false (s.drop (max n 1))
      | none => c :: gReplace f fuel false rest

/-- Run a global replace over a whole string. -/
def runReplace (f : Bool → List Char → Option (List Char × Nat))
    (s : List Char) : List Char :=
  gReplace f (s.length + 1) true s

/-- Matcher for /\[\s*<br>\s*\]/gi, replaced by a line feed. -/
def brMatch (_ : Bool) (s : List Char) : Option (List Char × Nat) :=
  match s with
  | '[' :: r =>
    let w1 := wsCount r
    match r.drop w1 with
    | a :: b :: c :: d :: r2 =>
      if a == '<' && (b == 'b' || b == 'B') && (c == 'r' || c == 'R') && d == '>' then
        let w2 := wsCount r2
        match r2.drop w2 with
        | ']' :: _ => some (['\n'], 1 + w1 + 4 + w2 + 1)
        | _ => none
      else none
    | _ => none
  | _ => none

/-- Matcher for /C\s*[\.\,\:\-]\s*âu/gi, the marker-word repair, replaced by
the canonical spelling Câu. -/
def cauRepairMatch (_ : Bool) (s : List Char) : Option (List Char × Nat) :=
  match s with
  | c0 :: r =>
    if c0 == 'C' || c0 == 'c' then
      let w1 := wsCount r
      match r.drop w1 with
      | p :: r1 =>
        if p == '.' || p == ',' || p == ':' || p == '-' then
          let w2 := wsCount r1
          match r1.drop w2 with
          | a :: u :: _ =>
            if (a == 'â' || a == 'Â') && (u == 'u' || u == 'U') then
              some ("Câu".data, 1 + w1 + 1 + w2 + 2)
            else none
          | _ => none
        else none
      | _ => none
    else none
  | _ => none

/-- Matcher for /[ \t]+/g, replaced by one space. -/
def hspaceMatch (_ : Bool) (s : List Char) : Option (List Char × Nat) :=
  let n := hspCount s
  if n == 0 then none else some ([' '], n)

/-- Matcher for /\n{3,}/g, replaced by two line feeds. -/
def nl3Match (_ : Bool) (s : List Char) : Option (List Char × Nat) :=
  let n := nlCount s
  if n ≥ 3 then some (['\n', '\n'], n) else none

/-- Matcher for /\n{2,}/g, replaced by one line feed. -/
def nl2Match (_ : Bool) (s : List Char) : Option (List Char × Nat) :=
  let n := nlCount s
  if n ≥ 2 then some (['\n'], n) else none

/-- The three characters of the marker word Câu, case-insensitively. -/
def cauWord (c0 a u : Char) : Bool :=
  (c0 == 'C' || c0 == 'c') && (a == 'â' || a == 'Â') && (u == 'u' || u == 'U')

/-- Matcher for the question-marker rewrite
s.replace(/\s*(Câu)\s*(\d+)\s*[:\.\-]?\s*/gi, "\nCâu <digits>: "): leading
whitespace, the marker word, whitespace, at least one digit (captured
verbatim), whitespace, an optional punctuation mark, trailing whitespace. -/
def markerMatch (_ : Bool) (s : List Char) : Option (List Char × Nat) :=
  let w0 := wsCount s
  match s.drop w0 with
  | c0 :: a :: u :: r =>
    if cauWord c0 a u then
      let w1 := wsCount r
      let r1 := r.drop w1
      let d := digitCount r1
      if d == 0 then none
      else
        let digits := r1.take d
        let r2 := r1.drop d
        let w2 := wsCount r2
        let r3 := r2.drop w2
        let pn := match r3 with
          | q :: _ => if q == ':' || q == '.' || q == '-' then 1 else 0
          | [] => 0
        let w3 := wsCount (r3.drop pn)
        some ('\n' :: "Câu ".data ++ digits ++ ": ".data,
              w0 + 3 + w1 + d + w2 + pn + w3)
    else none
  | _ => none

/-- Membership in the option-letter class [a-dA-D]. -/
def optLetter (c : Char) : Bool :=
  c == 'a' || c == 'b' || c == 'c' || c == 'd' ||
  c == 'A' || c == 'B' || c == 'C' || c == 'D'

/-- The replacement "\n<LETTER>. " both option rewrites emit. -/
def optRep (c : Char) : List Char :=
  ['\n', c.toUpper, '.', ' ']

/-- After the letter of the punctuated option pattern: \s*, one of [).:-],
\s*, and the lookahead (?=\S), which holds exactly when a character follows
the maximal whitespace run. Yields the number of characters consumed. -/
def optAfterLetter (rest : List Char) : Option Nat :=
  let w1 := wsCount rest
  match rest.drop w1 with
  | p :: r1 =>
    if p == ')' || p == '.' || p == ':' || p == '-' then
      let w2 := wsCount r1
      match r1.drop w2 with
      | _ :: _ => some (w1 + 1 + w2)
      | [] => none
    else none
  | [] => none

/-- After the letter of the tolerant option pattern: \s+ then (?=\S). -/
def optTolAfterLetter (rest : List Char) : Option Nat :=
  let w := wsCount rest
  if w == 0 then none
  else
    match rest.drop w with
    | _ :: _ => some w
    | [] => none

/-- Matcher for /(^|[\n ]+)([a-dA-D])\s*[\)\.\:\-]\s*(?=\S)/g, replaced by
"\n<LETTER>. ". The alternation tries the start anchor first, then a run of
newline-or-space. -/
def optPunctMatch (atStart : Bool) (s : List Char) : Option (List Char × Nat) :=
  (if atStart then
    match s with
    | c :: r =>
      if optLetter c then (optAfterLetter r).map (fun n => (optRep c, 1 + n))
      else none
    | [] => none
  else none) <|>
  (let pre := nlSpCount s
   if pre == 0 then none
   else
     match s.drop pre with
     | c :: r =>
       if optLetter c then (optAfterLetter r).map (fun n => (optRep c, pre + 1 + n))
       else none
     | [] => none)

/-- Matcher for /(^|[\n ]+)([a-dA-D])\s+(?=\S)/g, replaced by "\n<LETTER>. ". -/
def optTolerantMatch (atStart : Bool) (s : List Char) : Option (List Char × Nat) :=
  (if atStart then
    match s with
    | c :: r =>
      if optLetter c then (optTolAfterLetter r).map (fun n => (optRep c, 1 + n))
      else none
    | [] => none
  else none) <|>
  (let pre := nlSpCount s
   if pre == 0 then none
   else
     match s.drop pre with
     | c :: r =>
       if optLetter c then (optTolAfterLetter r).map (fun n => (optRep c, pre + 1 + n))
       else none
     | [] => none)

/-- Split at every line feed, as String.prototype.split("\n") does: the
empty string yields one empty piece. -/
def splitNl : List Char → List (List Char)
  | [] => [[]]
  | c :: r =>
    if c == '\n' then [] :: splitNl r
    else
      match splitNl r with
      | h :: t => (c :: h) :: t
      | [] => [[c]]

/-- Test for /^CHƯƠNG\s*\d+/i on a line. -/
def isChuongHeading (l : List Char) : Bool :=
  match l with
  | c1 :: c2 :: c3 :: c4 :: c5 :: c6 :: r =>
    (c1 == 'C' || c1 == 'c') && (c2 == 'H' || c2 == 'h') &&
    (c3 == 'Ư' || c3 == 'ư') && (c4 == 'Ơ' || c4 == 'ơ') &&
    (c5 == 'N' || c5 == 'n') && (c6 == 'G' || c6 == 'g') &&
    decide (0 < digitCount (r.drop (wsCount r)))
  | _ => false

/-- Test for /^Phần\s+/i on a line. -/
def isPhanHeading (l : List Char) : Bool :=
  match l with
  | c1 :: c2 :: c3 :: c4 :: r =>
    (c1 == 'P' || c1 == 'p') && (c2 == 'H' || c2 == 'h') &&
    (c3 == 'ầ' || c3 == 'Ầ') && (c4 == 'N' || c4 == 'n') &&
    decide (0 < wsCount r)
  | _ => false

/-- The line filter of canonicalizeQuizText: drop empty lines and the two
heading shapes. -/
def keepLine (l : List Char) : Bool :=
  !l.isEmpty && !isChuongHeading l && !isPhanHeading l

/-- The canonicalizer pipeline of canonicalizeQuizText, stage for stage:
carriage returns to line feeds, the break-marker token, the marker-word
repair, horizontal-whitespace collapse, long newline runs, the question
marker rewrite, the two option-marker rewrites, the per-line trim-and-filter,
the final newline collapse and trim. -/
def canonicalizeList (input : List Char) : List Char :=
  let s1 := input.map (fun c => if c == '\r' then '\n' else c)
  let s2 := runReplace brMatch s1
  let s3 := runReplace cauRepairMatch s2
  let s4 := runReplace hspaceMatch s3
  let s5 := runReplace nl3Match s4
  let s6 := runReplace markerMatch s5
  let s7 := runReplace optPunctMatch s6
  let s8 := runReplace optTolerantMatch s7
  let lines := ((splitNl s8).map jsTrimList).filter keepLine
  let s9 := List.intercalate ['\n'] lines
  let s10 := runReplace nl2Match s9
  jsTrimList s10

/-- canonicalizeQuizText of the source, on strings. -/
def canonicalizeQuizText (input : String) : String :=
  ⟨canonicalizeList input.data⟩

/-- One labeled answer choice of a question, as the parser emits it. -/
structure OptionItem where
  key : String
  text : String
deriving DecidableEq, Repr

/-- A parsed question. The correct field of the source is initialized to
null by the parser and never set elsewhere; it is Option String here. -/
structure Question where
  id : String
  number : Nat
  prompt : String
  options : List OptionItem
  correct : Option String
deriving DecidableEq, Repr

/-- The lookahead of the block split /(?=^Câu\s*\d+\:\s)/gim, tested at a
line start: the marker word, whitespace, at least one digit, a colon, one
whitespace character. -/
def blockLA (s : List Char) : Bool :=
  match s with
  | c0 :: a :: u :: r =>
    cauWord c0 a u &&
    (let r1 := r.drop (wsCount r)
     let d := digitCount r1
     decide (0 < d) &&
     (match r1.drop d with
      | ':' :: c :: _ => jsWs c
      | _ => false))
  | _ => false

/-- Helper of splitBlocks: acc holds the current piece reversed. A split
point is a line start (just after a line feed) where the lookahead holds;
the line feed stays with the piece before it, as a lookahead split leaves
all text in the pieces. -/
def splitBlocksAux : List Char → List Char → List (List Char)
  | acc, [] => [acc.reverse]
  | acc, c :: rest =>
    if c == '\n' && blockLA rest then (c :: acc).reverse :: splitBlocksAux [] rest
    else splitBlocksAux (c :: acc) rest

/-- text.split(/(?=^Câu\s*\d+\:\s)/gim): cut before every line start whose
line begins a question marker; a match at position zero does not split. -/
def splitBlocks (s : List Char) : List (List Char) :=
  splitBlocksAux [] s

/-- The header pattern /^Câu\s*(\d+)\:\s*([\s\S]*)$/i on a trimmed block:
yields the question number and the body (which the source then trims). -/
def headMatch (b : List Char) : Option (Nat × List Char) :=
  match b with
  | c0 :: a :: u :: r =>
    if cauWord c0 a u then
      let w := wsCount r
      let r1 := r.drop w
      let d := digitCount r1
      if d == 0 then none
      else
        match r1.drop d with
        | ':' :: r2 => some (digitsToNat (r1.take d), jsTrimList (r2.drop (wsCount r2)))
        | _ => none
    else none
  | _ => none

/-- The option pattern /^([A-D])\.\s*(.+)$/i on a line: a letter, a dot,
greedy whitespace, then at least one character. When everything after the
dot is whitespace, the greedy \s* backtracks one character so that (.+)
matches it; the captured text is trimmed afterwards either way, as the
source trims mo[2]. -/
def optMatch (l : List Char) : Option (Char × List Char) :=
  match l with
  | c :: '.' :: r =>
    if optLetter c then
      if r.isEmpty then none
      else if (r.dropWhile jsWs).isEmpty then some (c, [])
      else some (c, jsTrimList (r.dropWhile jsWs))
    else none
  | _ => none

/-- options[options.length - 1].text = (text + " " + line).trim(): append a
continuation line to the text of the most recently opened option. -/
def appendToLast : List OptionItem → List Char → List OptionItem
  | [], _ => []
  | [o], l => [{ o with text := ⟨jsTrimList (o.text.data ++ ' ' :: l)⟩ }]
  | o :: os, l => o :: appendToLast os l

/-- The line walk of parseQuestionsFromText: an option line opens an option
and sets the in-options flag; any other line goes to the prompt accumulator
before the first option and to the last option's text after it. The prompt
lines are accumulated reversed. -/
def walkLines : List (List Char) → List String → List OptionItem → Bool →
    List String × List OptionItem
  | [], ps, os, _ => (ps.reverse, os)
  | l :: rest, ps, os, inOpts =>
    match optMatch l with
    | some (c, t) => walkLines rest ps (os ++ [⟨⟨[c.toUpper]⟩, ⟨t⟩⟩]) true
    | none =>
      if !inOpts then walkLines rest (String.mk l :: ps) os inOpts
      else if os.length != 0 then walkLines rest ps (appendToLast os l) inOpts
      else walkLines rest ps os inOpts

/-- promptLines.join(" ").trim() with the placeholder fallback of the
source (an empty trimmed join is falsy): the prompt is never left empty. -/
def promptOf (ps : List String) : String :=
  if jsTrimString (String.intercalate " " ps) = "" then "(Không tách được đề câu hỏi)"
  else jsTrimString (String.intercalate " " ps)

/-- The per-block step of parseQuestionsFromText: trim the block, drop it
when empty or when the header pattern fails, otherwise split the body into
trimmed non-empty lines, walk them, and build the Question. -/
def blockToQuestion (blockRaw : List Char) : Option Question :=
  let block := jsTrimList blockRaw
  if block.isEmpty then none
  else
    match headMatch block with
    | none => none
    | some (number, body) =>
      let lines := ((splitNl body).map jsTrimList).filter (fun l => !l.isEmpty)
      some { id := toString number, number := number,
             prompt := promptOf (walkLines lines [] [] false).1,
             options := (walkLines lines [] [] false).2, correct := none }

/-- parseQuestionsFromText of the source: canonicalize, split into blocks,
keep every block whose header matches. -/
def parseQuestionsFromText (rawText : String) : List Question :=
  (splitBlocks (canonicalizeList rawText.data)).filterMap blockToQuestion

/-!
Answer maps. The source keeps answers and answerKey as plain objects and
reads them as (answers[q.id] || ""), so absence and an empty string are one
and the same to every consumer; both maps are modelled as total functions
from id to string, with "" for absence.
-/

/-- statusOf of the source: the per-question classification, from the
submitted flag, the key map and the answer map. -/
def statusOf (submitted : Bool) (answerKey answers : String → String)
    (q : Question) : String :=
  let key := jsToUpperString (answerKey q.id)
  let sel := jsToUpperString (answers q.id)
  if !submitted then
    if sel ≠ "" then "answered" else "unanswered"
  else if key = "" then
    if sel ≠ "" then "answered_nokey" else "nokey"
  else if sel = "" then "unanswered_keyed"
  else if sel = key then "correct" else "wrong"

/-- The aggregate of the score memo. -/
structure ScoreResult where
  correctCount : Nat
  wrongCount : Nat
  totalKeyed : Nat
deriving DecidableEq, Repr

/-- One iteration of the scoring loop: skip unkeyed questions, count the
keyed one, then classify a non-empty selection as correct or wrong. -/
def scoreStep (answers answerKey : String → String) (acc : ScoreResult)
    (q : Question) : ScoreResult :=
  let key := jsToUpperString (answerKey q.id)
  if key = "" then acc
  else
    let acc1 := { acc with totalKeyed := acc.totalKeyed + 1 }
    let sel := jsToUpperString (answers q.id)
    if sel = "" then acc1
    else if sel = key then { acc1 with correctCount := acc1.correctCount + 1 }
    else { acc1 with wrongCount := acc1.wrongCount + 1 }

/-- The scoring loop of the score memo, over the question list. -/
def scoreCompute (questions : List Question) (answers answerKey : String → String) :
    ScoreResult :=
  questions.foldl (scoreStep answers answerKey) ⟨0, 0, 0⟩

/-- keyedCount of the source: questions whose key entry is truthy. -/
def keyedCount (questions : List Question) (answerKey : String → String) : Nat :=
  (questions.filter (fun q => answerKey q.id ≠ "")).length

/-- The score memo: null unless submitted and canScore (at least one keyed
question), otherwise the computed aggregate. -/
def scoreTop (submitted : Bool) (questions : List Question)
    (answers answerKey : String → String) : Option ScoreResult :=
  if !submitted || !(decide (0 < keyedCount questions answerKey)) then none
  else some (scoreCompute questions answers answerKey)

/-!
Answer-key import. The payload handed to importAnswerKeyFromJsonFile is the
result of JSON.parse on the uploaded file; a parse failure is modelled as
none, a parsed document as some of the Json tree below (numbers as integers,
which covers every payload shape the claims speak about).
-/

/-- A parsed JSON document. -/
inductive Json where
  | null
  | bool (b : Bool)
  | num (n : Int)
  | str (s : String)
  | arr (items : List Json)
  | obj (fields : List (String × Json))
deriving Repr

/-- isValidChoice of the source: a string whose trim matches /^[A-E]$/i. -/
def isValidChoice (x : Json) : Bool :=
  match x with
  | .str s =>
    match (jsTrimString s).data with
    | [c] => c == 'A' || c == 'B' || c == 'C' || c == 'D' || c == 'E' ||
             c == 'a' || c == 'b' || c == 'c' || c == 'd' || c == 'e'
    | _ => false
  | _ => false

/-- isValidChoice applied through optional chaining: undefined is not a
string. -/
def isValidChoiceOpt : Option Json → Bool
  | some x => isValidChoice x
  | none => false

/-- Number() on the string keys of a flat payload, restricted to the forms
that occur here: whitespace-trimmed, the empty string is zero, an optionally
signed digit string is its value, anything else is NaN (none). -/
def jsNumberOfString (s : String) : Option Int :=
  let t := (jsTrimString s).data
  if t.isEmpty then some 0
  else
    match t with
    | '-' :: ds =>
      if !ds.isEmpty && ds.all Char.isDigit then some (-(digitsToNat ds : Int)) else none
    | '+' :: ds =>
      if !ds.isEmpty && ds.all Char.isDigit then some (digitsToNat ds : Int) else none
    | ds => if ds.all Char.isDigit then some (digitsToNat ds : Int) else none

/-- Number() on a record field reached by optional chaining: undefined is
NaN, null is zero, booleans are zero and one, numbers are themselves,
strings go through the string conversion; a nested array or object is
modelled as NaN (such payload shapes never yield a matching question
number). -/
def jsNumberOfField : Option Json → Option Int
  | none => none
  | some .null => some 0
  | some (.bool b) => some (if b then 1 else 0)
  | some (.num n) => some n
  | some (.str s) => jsNumberOfString s
  | some (.arr _) => none
  | some (.obj _) => none

/-- Property read with optional chaining, item?.name: a field of an object,
undefined otherwise. -/
def jsField (j : Json) (name : String) : Option Json :=
  match j with
  | .obj fields => (fields.find? (fun p => p.1 == name)).map (fun p => p.2)
  | _ => none

/-- String(v).toUpperCase().trim() on a value isValidChoice accepted. -/
def choiceVal : Json → String
  | .str s => jsTrimString (jsToUpperString s)
  | _ => ""

/-- Map.set of numberToId: overwrite the entry if present, append if not,
so a later question with the same number wins. -/
def asetNat (m : List (Nat × String)) (k : Nat) (v : String) : List (Nat × String) :=
  if m.any (fun p => p.1 == k) then m.map (fun p => if p.1 == k then (k, v) else p)
  else m ++ [(k, v)]

/-- The numberToId map of the importer: for each question its number, or the
1-based position when the number is zero (falsy), mapped to its id. -/
def buildNumberToId (questions : List Question) : List (Nat × String) :=
  questions.enum.foldl
    (fun m p => asetNat m (if p.2.number == 0 then p.1 + 1 else p.2.number) p.2.id) []

/-- numberToId.get(num) for the integer the payload carried: a negative or
fractional number matches nothing. -/
def intLookup (m : List (Nat × String)) (num : Int) : Option String :=
  if num < 0 then none else m.lookup num.toNat

/-- keyById[qid] = v: overwrite-or-append assignment on the result object. -/
def osetStr (m : List (String × String)) (k v : String) : List (String × String) :=
  if m.any (fun p => p.1 == k) then m.map (fun p => if p.1 == k then (k, v) else p)
  else m ++ [(k, v)]

/-- One entry of the flat-object loop: skip when the key is not a number,
the value is not a valid choice, or no question carries the number;
otherwise store the normalized letter under the question id. -/
def objStep (nti : List (Nat × String)) (m : List (String × String))
    (e : String × Json) : List (String × String) :=
  match jsNumberOfString e.1 with
  | none => m
  | some num =>
    if !isValidChoice e.2 then m
    else
      match intLookup nti num with
      | none => m
      | some qid => if qid = "" then m else osetStr m qid (choiceVal e.2)

/-- One record of the array loop: the number field and the answer field,
with the same skip rules. -/
def arrStep (nti : List (Nat × String)) (m : List (String × String))
    (item : Json) : List (String × String) :=
  match jsNumberOfField (jsField item "number") with
  | none => m
  | some num =>
    let ans := jsField item "answer"
    if !isValidChoiceOpt ans then m
    else
      match intLookup nti num with
      | none => m
      | some qid =>
        if qid = "" then m
        else osetStr m qid (match ans with | some a => choiceVal a | none => "")

/-- importAnswerKeyFromJsonFile of the source: a parse failure throws, a
flat object and an array of records are folded entry by entry, any other
top-level shape throws. -/
def importAnswerKeyFromJsonFile (payload : Option Json) (questions : List Question) :
    Except String (List (String × String)) :=
  match payload with
  | none => .error "File JSON không hợp lệ (parse lỗi)."
  | some data =>
    match data with
    | .obj fields => .ok (fields.foldl (objStep (buildNumberToId questions)) [])
    | .arr items => .ok (items.foldl (arrStep (buildNumberToId questions)) [])
    | _ => .error "JSON không đúng format (cần object hoặc array)."

/-- An entry of a flat-object payload that the loop does not skip. -/
def validObjEntry (nti : List (Nat × String)) (e : String × Json) : Bool :=
  match jsNumberOfString e.1 with
  | none => false
  | some num =>
    isValidChoice e.2 &&
    (match intLookup nti num with
     | none => false
     | some qid => qid != "")

/-- A record of an array payload that the loop does not skip. -/
def validArrEntry (nti : List (Nat × String)) (item : Json) : Bool :=
  match jsNumberOfField (jsField item "number") with
  | none => false
  | some num =>
    isValidChoiceOpt (jsField item "answer") &&
    (match intLookup nti num with
     | none => false
     | some qid => qid != "")

/-- Uppercasing a string yields the empty string exactly for the empty
string. -/
theorem jsToUpperString_eq_empty {s : String} : jsToUpperString s = "" ↔ s = "" := by
  unfold jsToUpperString
  constructor
  · intro h
    have hd : (s.data.map Char.toUpper) = ("" : String).data := congrArg String.data h
    simp at hd
    cases s with
    | mk d => simp_all
  · intro h; subst h; rfl

/-- The prompt builder never yields the empty string. -/
theorem promptOf_ne_empty (ps : List String) : promptOf ps ≠ "" := by
  unfold promptOf
  split
  · decide
  · assumption

/-- A question emitted for a block carries a prompt built by promptOf. -/
theorem blockToQuestion_prompt {b : List Char} {q : Question}
    (h : blockToQuestion b = some q) : ∃ ps, q.prompt = promptOf ps := by
  simp only [blockToQuestion] at h
  split at h
  · exact absurd h (by simp)
  · split at h
    · exact absurd h (by simp)
    · cases h
      exact ⟨_, rfl⟩

/-- A question emitted for a block carries the options of a line walk that
started from an empty option list. -/
theorem blockToQuestion_options {b : List Char} {q : Question}
    (h : blockToQuestion b = some q) :
    ∃ ls, q.options = (walkLines ls [] [] false).2 := by
  simp only [blockToQuestion] at h
  split at h
  · exact absurd h (by simp)
  · split at h
    · exact absurd h (by simp)
    · cases h
      exact ⟨_, rfl⟩

/-- A line recognized as an option line starts with a letter of the option
class. -/
theorem optMatch_letter : ∀ {l : List Char} {c : Char} {t : List Char},
    optMatch l = some (c, t) → optLetter c = true := by
  intro l c t h
  unfold optMatch at h
  split at h
  case _ c0 r =>
    split at h
    case isTrue hc =>
      split at h
      · exact absurd h (by simp)
      · split at h <;> (cases h; exact hc)
    case isFalse => exact absurd h (by simp)
  case _ => exact absurd h (by simp)

/-- An option-class letter uppercases to A, B, C or D. -/
theorem optLetter_toUpper {c : Char} (h : optLetter c = true) :
    c.toUpper = 'A' ∨ c.toUpper = 'B' ∨ c.toUpper = 'C' ∨ c.toUpper = 'D' := by
  unfold optLetter at h
  simp only [Bool.or_eq_true, beq_iff_eq] at h
  rcases h with ((((((h | h) | h) | h) | h) | h) | h) | h <;> subst h <;> decide

/-- Appending continuation text to the last option leaves every option key
unchanged. -/
theorem appendToLast_key {P : String → Prop} :
    ∀ (os : List OptionItem) (l : List Char),
    (∀ o ∈ os, P o.key) → ∀ o ∈ appendToLast os l, P o.key := by
  intro os
  induction os with
  | nil => intro l h o ho; cases ho
  | cons a os ih =>
    intro l h o ho
    cases os with
    | nil =>
      simp only [appendToLast, List.mem_singleton] at ho
      subst ho
      exact h a (by simp)
    | cons b os2 =>
      simp only [appendToLast] at ho
      rcases List.mem_cons.mp ho with rfl | ho2
      · exact h o (by simp)
      · exact ih l (fun o2 ho3 => h o2 (List.mem_cons_of_mem a ho3)) o ho2

/-- Every option the line walk emits, on top of options already satisfying
the bound, has key A, B, C or D. -/
theorem walkLines_keys :
    ∀ (ls : List (List Char)) (ps : List String) (os : List OptionItem) (b : Bool),
    (∀ o ∈ os, o.key = "A" ∨ o.key = "B" ∨ o.key = "C" ∨ o.key = "D") →
    ∀ o ∈ (walkLines ls ps os b).2,
    o.key = "A" ∨ o.key = "B" ∨ o.key = "C" ∨ o.key = "D" := by
  intro ls
  induction ls with
  | nil => intro ps os b hos o ho; exact hos o ho
  | cons l rest ih =>
    intro ps os b hos o ho
    rw [walkLines] at ho
    split at ho
    case _ c t hm =>
      refine ih _ _ _ ?_ o ho
      intro o2 ho2
      rcases List.mem_append.mp ho2 with h2 | h2
      · exact hos o2 h2
      · rcases List.mem_singleton.mp h2 with rfl
        show String.mk [c.toUpper] = "A" ∨ String.mk [c.toUpper] = "B" ∨
          String.mk [c.toUpper] = "C" ∨ String.mk [c.toUpper] = "D"
        rcases optLetter_toUpper (optMatch_letter hm) with h3 | h3 | h3 | h3 <;> rw [h3]
        · exact Or.inl rfl
        · exact Or.inr (Or.inl rfl)
        · exact Or.inr (Or.inr (Or.inl rfl))
        · exact Or.inr (Or.inr (Or.inr rfl))
    case _ hm =>
      split at ho
      · exact ih _ _ _ hos o ho
      · split at ho
        · exact ih _ _ _
            (@appendToLast_key (fun k => k = "A" ∨ k = "B" ∨ k = "C" ∨ k = "D") os l hos) o ho
        · exact ih _ _ _ hos o ho

/-- Counting a conjunction of predicates counts at most as much as the first
predicate alone. -/
theorem countP_and_le {α : Type} (l : List α) (p r : α → Bool) :
    l.countP (fun x => p x && r x) ≤ l.countP p := by
  induction l with
  | nil => simp
  | cons x xs ih =>
    simp only [List.countP_cons]
    cases hp : p x <;> cases hr : r x <;> simp [hp, hr] <;> omega

/-- The conjunction count equals the first predicate's count exactly when the
second predicate holds on every element satisfying the first. -/
theorem countP_and_eq_iff {α : Type} (l : List α) (p r : α → Bool) :
    l.countP (fun x => p x && r x) = l.countP p ↔
      ∀ x ∈ l, p x = true → r x = true := by
  induction l with
  | nil => simp
  | cons x xs ih =>
    have hle := countP_and_le xs p r
    simp only [List.countP_cons, List.mem_cons, forall_eq_or_imp]
    cases hp : p x <;> cases hr : r x <;> simp_all
    omega

/-- The scoring loop's totalKeyed counts the questions with a non-empty key
entry. -/
theorem scoreFold_totalKeyed (answers answerKey : String → String) :
    ∀ (qs : List Question) (acc : ScoreResult),
    (qs.foldl (scoreStep answers answerKey) acc).totalKeyed =
      acc.totalKeyed + qs.countP (fun q => jsToUpperString (answerKey q.id) != "") := by
  intro qs
  induction qs with
  | nil => simp
  | cons q qs ih =>
    intro acc
    rw [List.foldl_cons, List.countP_cons, ih]
    simp only [scoreStep]
    by_cases hk : jsToUpperString (answerKey q.id) = ""
    · simp [hk]
    · by_cases hs : jsToUpperString (answers q.id) = ""
      · simp [hk, hs]
        omega
      · by_cases he : jsToUpperString (answers q.id) = jsToUpperString (answerKey q.id)
        · simp [hk, hs, he]
          omega
        · simp [hk, hs, he]
          omega

/-- The scoring loop's correct and wrong counters together count the keyed
questions with a non-empty selection. -/
theorem scoreFold_correctWrong (answers answerKey : String → String) :
    ∀ (qs : List Question) (acc : ScoreResult),
    (qs.foldl (scoreStep answers answerKey) acc).correctCount +
      (qs.foldl (scoreStep answers answerKey) acc).wrongCount =
      acc.correctCount + acc.wrongCount +
        qs.countP (fun q => (jsToUpperString (answerKey q.id) != "") &&
          (jsToUpperString (answers q.id) != "")) := by
  intro qs
  induction qs with
  | nil => simp
  | cons q qs ih =>
    intro acc
    rw [List.foldl_cons, List.countP_cons, ih]
    simp only [scoreStep]
    by_cases hk : jsToUpperString (answerKey q.id) = ""
    · simp [hk]
    · by_cases hs : jsToUpperString (answers q.id) = ""
      · simp [hk, hs]
      · by_cases he : jsToUpperString (answers q.id) = jsToUpperString (answerKey q.id)
        · simp [hk, hs, he]
          omega
        · simp [hk, hs, he]
          omega

/-- Claim C6: for every question list, answer map and answer-key map the
aggregate satisfies correctCount + wrongCount ≤ totalKeyed ≤ number of
questions, and correctCount + wrongCount = totalKeyed exactly when every
question with a key entry also has a non-empty submission. -/
theorem claim6_scoring_exclusivity (qs : List Question) (answers answerKey : String → String) :
    (scoreCompute qs answers answerKey).correctCount +
        (scoreCompute qs answers answerKey).wrongCount ≤
      (scoreCompute qs answers answerKey).totalKeyed ∧
    (scoreCompute qs answers answerKey).totalKeyed ≤ qs.length ∧
    ((scoreCompute qs answers answerKey).correctCount +
        (scoreCompute qs answers answerKey).wrongCount =
        (scoreCompute qs answers answerKey).totalKeyed ↔
      ∀ q ∈ qs, answerKey q.id ≠ "" → answers q.id ≠ "") := by
  unfold scoreCompute
  rw [scoreFold_correctWrong, scoreFold_totalKeyed]
  simp only [Nat.zero_add]
  refine ⟨countP_and_le qs _ _, List.countP_le_length _, ?_⟩
  refine (countP_and_eq_iff qs _ _).trans ?_
  constructor
  · intro h q hq hk
    have hb := h q hq (by rwa [bne_iff_ne, ne_eq, jsToUpperString_eq_empty])
    rwa [bne_iff_ne, ne_eq, jsToUpperString_eq_empty] at hb
  · intro h q hq hk
    rw [bne_iff_ne, ne_eq, jsToUpperString_eq_empty] at hk ⊢
    exact h q hq hk

/-- Claim C10: when no question of the list has a key entry, the score memo
yields none rather than a zero aggregate; conversely a ScoreResult is
produced only when submitted is true and at least one question is keyed. -/
theorem claim10_no_keyed_no_score :
    (∀ (submitted : Bool) (qs : List Question) (answers answerKey : String → String),
      (∀ q ∈ qs, answerKey q.id = "") →
      scoreTop submitted qs answers answerKey = none) ∧
    (∀ (submitted : Bool) (qs : List Question) (answers answerKey : String → String)
      (r : ScoreResult), scoreTop submitted qs answers answerKey = some r →
      submitted = true ∧ ∃ q ∈ qs, answerKey q.id ≠ "") := by
  constructor
  · intro sub qs a k h
    have hz : keyedCount qs k = 0 := by
      unfold keyedCount
      rw [List.length_eq_zero, List.filter_eq_nil_iff]
      intro q hq
      simp [h q hq]
    unfold scoreTop
    rw [hz]
    simp
  · intro sub qs a k r hr
    unfold scoreTop at hr
    split at hr
    · cases hr
    case _ hcond =>
      simp only [Bool.or_eq_true, Bool.not_eq_true', decide_eq_false_iff_not] at hcond
      push_neg at hcond
      refine ⟨?_, ?_⟩
      · cases sub
        · exact absurd rfl hcond.1
        · rfl
      · have hpos : 0 < keyedCount qs k := hcond.2
        unfold keyedCount at hpos
        rw [List.length_pos] at hpos
        obtain ⟨q, hq⟩ := List.exists_mem_of_ne_nil _ hpos
        have hmem := List.mem_filter.mp hq
        exact ⟨q, hmem.1, by simpa using hmem.2⟩

/-- Claim C3 (amended): after submission, statusOf answers correct exactly
when the submission and the key are both non-empty and equal after
case-insensitive (uppercase) comparison, wrong exactly when both are
non-empty and differ under that comparison, and unanswered_keyed exactly
when the submission is empty and the key non-empty; no trimming is applied
at comparison time. -/
theorem claim3_amended_status_characterization (answerKey answers : String → String) (q : Question) :
    (statusOf true answerKey answers q = "correct" ↔
      answers q.id ≠ "" ∧ answerKey q.id ≠ "" ∧
      jsToUpperString (answers q.id) = jsToUpperString (answerKey q.id)) ∧
    (statusOf true answerKey answers q = "wrong" ↔
      answers q.id ≠ "" ∧ answerKey q.id ≠ "" ∧
      jsToUpperString (answers q.id) ≠ jsToUpperString (answerKey q.id)) ∧
    (statusOf true answerKey answers q = "unanswered_keyed" ↔
      answers q.id = "" ∧ answerKey q.id ≠ "") := by
  have hK := @jsToUpperString_eq_empty (answerKey q.id)
  have hS := @jsToUpperString_eq_empty (answers q.id)
  simp only [statusOf, Bool.not_true, Bool.false_eq_true, if_false]
  by_cases hk : jsToUpperString (answerKey q.id) = "" <;>
    by_cases hs : jsToUpperString (answers q.id) = ""
  · rw [if_pos hk, if_neg (by simp [hs])]
    exact ⟨iff_of_false (by decide) (by simp [hS.mp hs]),
           iff_of_false (by decide) (by simp [hS.mp hs]),
           iff_of_false (by decide) (by simp [hK.mp hk])⟩
  · rw [if_pos hk, if_pos (by simp [hs])]
    exact ⟨iff_of_false (by decide) (by simp [hK.mp hk]),
           iff_of_false (by decide) (by simp [hK.mp hk]),
           iff_of_false (by decide) (by simp [hK.mp hk])⟩
  · rw [if_neg hk, if_pos hs]
    refine ⟨iff_of_false (by decide) (by simp [hS.mp hs]),
            iff_of_false (by decide) (by simp [hS.mp hs]),
            iff_of_true rfl ⟨hS.mp hs, fun hc => hk (hK.mpr hc)⟩⟩
  · rw [if_neg hk, if_neg hs]
    by_cases he : jsToUpperString (answers q.id) = jsToUpperString (answerKey q.id)
    · rw [if_pos he]
      refine ⟨iff_of_true rfl ⟨fun hc => hs (hS.mpr hc), fun hc => hk (hK.mpr hc), he⟩,
              iff_of_false (by decide) (by simp [he]),
              iff_of_false (by decide) (fun hc => hs (hS.mpr hc.1))⟩
    · rw [if_neg he]
      refine ⟨iff_of_false (by decide) (by simp [he]),
              iff_of_true rfl ⟨fun hc => hs (hS.mpr hc), fun hc => hk (hK.mpr hc), he⟩,
              iff_of_false (by decide) ?_⟩
      intro hc
      exact hs (hS.mpr hc.1)

/-- An invalid flat-object entry leaves the import state unchanged. -/
theorem objStep_skip {nti : List (Nat × String)} {m : List (String × String)}
    {e : String × Json} (h : validObjEntry nti e = false) : objStep nti m e = m := by
  unfold objStep
  unfold validObjEntry at h
  split
  · rfl
  case _ num hnum =>
    rw [hnum] at h
    cases hv : isValidChoice e.2
    · rw [if_pos (by simp [hv])]
    · rw [if_neg (by simp [hv])]
      rw [hv] at h
      simp only [Bool.true_and] at h
      split
      · rfl
      case _ qid hqid =>
        rw [hqid] at h
        simp only [bne_iff_ne, ne_eq] at h
        rw [if_pos (by simpa using h)]

/-- An invalid array record leaves the import state unchanged. -/
theorem arrStep_skip {nti : List (Nat × String)} {m : List (String × String)}
    {item : Json} (h : validArrEntry nti item = false) : arrStep nti m item = m := by
  unfold arrStep
  unfold validArrEntry at h
  split
  · rfl
  case _ num hnum =>
    rw [hnum] at h
    cases hv : isValidChoiceOpt (jsField item "answer")
    · rw [if_pos (by simp [hv])]
    · rw [if_neg (by simp [hv])]
      rw [hv] at h
      simp only [Bool.true_and] at h
      split
      · rfl
      case _ qid hqid =>
        rw [hqid] at h
        simp only [bne_iff_ne, ne_eq] at h
        rw [if_pos (by simpa using h)]

/-- Folding the flat-object loop over all entries equals folding it over the
valid entries only. -/
theorem foldl_objStep_filter (nti : List (Nat × String)) :
    ∀ (fs : List (String × Json)) (m : List (String × String)),
    fs.foldl (objStep nti) m = (fs.filter (validObjEntry nti)).foldl (objStep nti) m := by
  intro fs
  induction fs with
  | nil => intro m; rfl
  | cons e fs ih =>
    intro m
    rw [List.foldl_cons, List.filter_cons]
    cases hv : validObjEntry nti e
    · rw [if_neg (by simp), objStep_skip hv, ih]
    · rw [if_pos (by simp), List.foldl_cons, ih]

/-- Folding the array loop over all records equals folding it over the valid
records only. -/
theorem foldl_arrStep_filter (nti : List (Nat × String)) :
    ∀ (items : List Json) (m : List (String × String)),
    items.foldl (arrStep nti) m = (items.filter (validArrEntry nti)).foldl (arrStep nti) m := by
  intro items
  induction items with
  | nil => intro m; rfl
  | cons e items ih =>
    intro m
    rw [List.foldl_cons, List.filter_cons]
    cases hv : validArrEntry nti e
    · rw [if_neg (by simp), arrStep_skip hv, ih]
    · rw [if_pos (by simp), List.foldl_cons, ih]

/-- Claim C4: the key import fails exactly when the payload does not parse
or its top level is neither a flat object nor an array; for those two
shapes it always returns the mapping built from the valid entries only,
however many individual entries are invalid. -/
theorem claim4_import_failure_shape (payload : Option Json) (qs : List Question) :
    ((∃ m, importAnswerKeyFromJsonFile payload qs = .ok m) ↔
      (∃ fields, payload = some (Json.obj fields)) ∨
      (∃ items, payload = some (Json.arr items))) ∧
    (∀ fields, importAnswerKeyFromJsonFile (some (Json.obj fields)) qs =
      .ok ((fields.filter (validObjEntry (buildNumberToId qs))).foldl
        (objStep (buildNumberToId qs)) [])) ∧
    (∀ items, importAnswerKeyFromJsonFile (some (Json.arr items)) qs =
      .ok ((items.filter (validArrEntry (buildNumberToId qs))).foldl
        (arrStep (buildNumberToId qs)) [])) := by
  refine ⟨?_, ?_, ?_⟩
  · constructor
    · rintro ⟨m, hm⟩
      unfold importAnswerKeyFromJsonFile at hm
      match payload, hm with
      | some (Json.obj fields), hm => exact Or.inl ⟨fields, rfl⟩
      | some (Json.arr items), hm => exact Or.inr ⟨items, rfl⟩
    · rintro (⟨fields, rfl⟩ | ⟨items, rfl⟩)
      · exact ⟨_, rfl⟩
      · exact ⟨_, rfl⟩
  · intro fields
    have hred : importAnswerKeyFromJsonFile (some (Json.obj fields)) qs =
        .ok (fields.foldl (objStep (buildNumberToId qs)) []) := rfl
    rw [hred, foldl_objStep_filter]
  · intro items
    have hred : importAnswerKeyFromJsonFile (some (Json.arr items)) qs =
        .ok (items.foldl (arrStep (buildNumberToId qs)) []) := rfl
    rw [hred, foldl_arrStep_filter]

/-- Claim C1 counterexample: a block with two option lines carrying the same
letter parses to one question whose option keys are A, A, so within one
question the emitted option keys are not pairwise distinct. -/
theorem claim1_counterexample_duplicate_keys :
    (parseQuestionsFromText "Câu 1: q\nA. x\nA. y").map
      (fun q => q.options.map (fun o => o.key)) = [["A", "A"]] := by decide

/-- Claim C1 (amended): option keys are emitted in order of appearance and
each is one of the uppercase letters A, B, C, D; pairwise distinctness is
not guaranteed, since duplicate option letters in one block yield duplicate
keys. -/
theorem claim1_amended_option_keys (s : String) (q : Question) (o : OptionItem)
    (hq : q ∈ parseQuestionsFromText s) (ho : o ∈ q.options) :
    o.key = "A" ∨ o.key = "B" ∨ o.key = "C" ∨ o.key = "D" := by
  unfold parseQuestionsFromText at hq
  rcases List.mem_filterMap.mp hq with ⟨b, _, hbq⟩
  rcases blockToQuestion_options hbq with ⟨ls, hop⟩
  rw [hop] at ho
  exact walkLines_keys ls [] [] false (fun o2 h2 => absurd h2 (List.not_mem_nil o2)) o ho

/-- Witness for the amended claim C1 at a concrete parsed document. -/
theorem claim1_amended_option_keys_witness :
    ({ key := "A", text := "x" } : OptionItem).key = "A" ∨
    ({ key := "A", text := "x" } : OptionItem).key = "B" ∨
    ({ key := "A", text := "x" } : OptionItem).key = "C" ∨
    ({ key := "A", text := "x" } : OptionItem).key = "D" :=
  claim1_amended_option_keys "Câu 1: q\nA. x" ⟨"1", 1, "q", [⟨"A", "x"⟩], none⟩
    ⟨"A", "x"⟩ (by decide) (by decide)

/-- Claim C2 counterexample: on the raw input of the claim the marker word
Cau (no circumflex, no separating punctuation) is not repaired, so the
canonical text still starts with Cau1 and parsing yields no question at
all, not one question numbered 1. -/
theorem claim2_counterexample_unrepaired_marker :
    canonicalizeQuizText "Cau1: What is 2+2? a) 3 b) 4 c) 5" =
      "Cau1: What is 2+2?\nA. 3\nB. 4\nC. 5" ∧
    parseQuestionsFromText "Cau1: What is 2+2? a) 3 b) 4 c) 5" = [] := by
  exact ⟨by decide, by decide⟩

/-- Claim C2 (amended): for the raw input with the marker word split by a
stray separator, C.âu1, canonicalize produces the claimed canonical text
and parsing yields exactly one question numbered 1 with the three options
A, B, C in that order. -/
theorem claim2_amended_marker_repair_example :
    canonicalizeQuizText "C.âu1: What is 2+2? a) 3 b) 4 c) 5" =
      "Câu 1: What is 2+2?\nA. 3\nB. 4\nC. 5" ∧
    parseQuestionsFromText "C.âu1: What is 2+2? a) 3 b) 4 c) 5" =
      [⟨"1", 1, "What is 2+2?", [⟨"A", "3"⟩, ⟨"B", "4"⟩, ⟨"C", "5"⟩], none⟩] := by
  exact ⟨by decide, by decide⟩

/-- Claim C3 counterexample: a submission that equals the key after
trimming (A with a trailing space, against key A) is classified wrong, not
correct, because statusOf compares without trimming. -/
theorem claim3_counterexample_no_trim :
    statusOf true (fun _ => "A") (fun _ => "A ") ⟨"1", 1, "p", [], none⟩ = "wrong" ∧
    jsTrimString "A " = jsTrimString "A" := by
  exact ⟨by decide, by decide⟩

/-- Claim C5 counterexample: canonicalize is not idempotent; on the input
a a a the first pass yields one line while the second pass splits it into
two lines. -/
theorem claim5_counterexample_not_idempotent :
    canonicalizeQuizText "a a a" = "A. a a" ∧
    canonicalizeQuizText (canonicalizeQuizText "a a a") = "A.\nA. a" := by
  exact ⟨by decide, by decide⟩

/-- Claim C5 (amended): canonicalize is not idempotent for all strings; a
second pass is the identity on well-formed inputs such as the repaired
Example 1 document. -/
theorem claim5_amended_idempotent_on_example :
    canonicalizeQuizText (canonicalizeQuizText "C.âu1: What is 2+2? a) 3 b) 4 c) 5") =
      canonicalizeQuizText "C.âu1: What is 2+2? a) 3 b) 4 c) 5" := by decide

/-- Claim C7: importing the flat payload with entries 1 ↦ A and 5 ↦ z
against questions numbered 1 and 2 succeeds and returns only the entry for
question 1; the entry keyed 5 is dropped silently. -/
theorem claim7_flat_key_import_example :
    importAnswerKeyFromJsonFile
      (some (Json.obj [("1", Json.str "A"), ("5", Json.str "z")]))
      [⟨"1", 1, "p1", [], none⟩, ⟨"2", 2, "p2", [], none⟩] = .ok [("1", "A")] := by rfl

/-- Claim C8: canonicalize and parse are total functions returning a string
and a (possibly empty) question list on every input, the empty string
included. -/
theorem claim8_parse_total :
    canonicalizeQuizText "" = "" ∧ parseQuestionsFromText "" = [] ∧
    (∀ s : String, ∃ c : String, canonicalizeQuizText s = c) ∧
    (∀ s : String, ∃ qs : List Question, parseQuestionsFromText s = qs) :=
  ⟨rfl, rfl, fun _ => ⟨_, rfl⟩, fun _ => ⟨_, rfl⟩⟩

/-- Claim C9: when the space-joined prompt lines trim to the empty string
the fixed placeholder is substituted, and every parsed question has a
non-empty prompt. -/
theorem claim9_prompt_nonempty :
    (∀ ps, jsTrimString (String.intercalate " " ps) = "" →
      promptOf ps = "(Không tách được đề câu hỏi)") ∧
    (∀ (s : String) (q : Question), q ∈ parseQuestionsFromText s → q.prompt ≠ "") := by
  constructor
  · intro ps h
    unfold promptOf
    rw [if_pos h]
  · intro s q hq
    unfold parseQuestionsFromText at hq
    rcases List.mem_filterMap.mp hq with ⟨b, _, hbq⟩
    rcases blockToQuestion_prompt hbq with ⟨ps, hp⟩
    rw [hp]
    exact promptOf_ne_empty ps

end PdfQuiz
